import Mathlib

/-!
Shallow embedding of the `parca-dev/debug-info` command-line tool
(`cmd/parca-debuginfo/main.go`, upload / extract / source commands).

Byte streams (`io.ReadSeeker` values: open files and `flexbuf.Buffer`
scratch buffers) are modelled as a content list plus a read position.
The external collaborators (gRPC store, HTTP client, ELF build-id
resolver, `elfwriter` reducer, local filesystem) are modelled as
environments of response functions; the client logic under
verification is translated from the source and emits an event trace
recording every protocol call it makes.
-/

namespace DebugInfo

/-- Artifact content bytes. -/
abbrev Bytes := List Nat

/-- A seekable reader (`io.ReadSeeker`): full content plus current read
position.  Models both an opened `os.File` and a `flexbuf.Buffer`. -/
structure ByteStream where
  content : Bytes
  pos : Nat
deriving Repr, DecidableEq

/-- `hash.Reader` / `io.Copy` read the stream from its current position to
the end, leaving the position at the end. -/
def ByteStream.readToEnd (s : ByteStream) : Bytes × ByteStream :=
  (s.content.drop s.pos, { s with pos := s.content.length })

/-- `Seek(0, io.SeekStart)` / `flexbuf.SeekStart`: rewind to offset 0. -/
def ByteStream.seekStart (s : ByteStream) : ByteStream :=
  { s with pos := 0 }

/-- `debuginfopb.DebuginfoType` protobuf enum values used by the client. -/
inductive DebuginfoType where
  | unspecified
  | executable
  | sources
deriving Repr, DecidableEq

/-- `debuginfoTypeStringToPb` from `main.go`: maps the CLI type string to
the protobuf enum, defaulting to `DEBUGINFO_TYPE_DEBUGINFO_UNSPECIFIED`. -/
def debuginfoTypeStringToPb (s : String) : DebuginfoType :=
  match s with
  | "executable" => DebuginfoType.executable
  | "sources" => DebuginfoType.sources
  | _ => DebuginfoType.unspecified

/-- `UploadInstructions_UPLOAD_STRATEGY_UNSPECIFIED` (protobuf enum value 0). -/
def strategyUnspecified : Nat := 0

/-- `UploadInstructions_UPLOAD_STRATEGY_GRPC` (protobuf enum value 1). -/
def strategyGrpc : Nat := 1

/-- `UploadInstructions_UPLOAD_STRATEGY_SIGNED_URL` (protobuf enum value 2). -/
def strategySignedUrl : Nat := 2

/-- Server-returned `UploadInstructions`.  The strategy is the raw protobuf
enum numeral, since the `switch` in the source has a `default` arm for
unknown values. -/
structure UploadInstructions where
  buildId : String
  uploadId : String
  uploadStrategy : Nat
  signedUrl : String
deriving Repr, DecidableEq

/-- Server-returned `ShouldInitiateUploadResponse`. -/
structure ShouldInitiateResp where
  shouldInitiateUpload : Bool
  reason : String
deriving Repr, DecidableEq

/-- Structured run errors; `wrapped` models `fmt.Errorf("...%q...: %w", ...)`
annotating an error with the offending path or context string. -/
inductive RunError where
  | msg (s : String)
  | wrapped (ctx : String) (e : RunError)
  | emptyFile (path : String)
  | emptyExtraction (path : String)
  | unexpectedStatus (code : Nat)
  | noStrategy
  | unknownStrategy (code : Nat)
  | extractionFailed (failures : List (String × String))
deriving Repr, DecidableEq

/-- `http.StatusOK`. -/
def statusOK : Nat := 200

/-- Protocol / output events emitted by the client, in program order.
`initiateCall` and the transmit events record the byte sequence the hash
was computed over (its pre-image) resp. the bytes handed to the
transport, which is what the hash-integrity property compares. -/
inductive Event where
  | shouldInitiateCall (buildId : String) (force : Bool) (ty : DebuginfoType)
  | skipMsg (path buildId reason : String)
  | noInitiateMsg (path buildId reason : String)
  | hashComputed (input : Bytes)
  | initiateCall (buildId : String) (hashInput : Bytes) (size : Nat)
      (force : Bool) (ty : DebuginfoType)
  | grpcTransmit (body : Bytes)
  | signedUrlPut (url : String) (body : Bytes)
  | markFinishedCall (buildId uploadId : String) (ty : DebuginfoType)
deriving Repr, DecidableEq

/-- The `uploadInfo` struct from `main.go`. -/
structure uploadInfo where
  buildID : String
  path : String
  reader : ByteStream
  size : Nat
deriving Repr, DecidableEq

/-- The CLI flags consumed by the upload and extract code paths. -/
structure flags where
  logLevel : String
  force : Bool
  noInitiate : Bool
  noExtract : Bool
  uploadType : String
  buildID : String
  mode : String
deriving Repr, DecidableEq

/-- Responses of the remote debug-info store and the HTTP endpoint.
Each field gives the outcome of one kind of remote call as a function of
the request. -/
structure ServerEnv where
  shouldInitiate : String → Bool → DebuginfoType → Except String ShouldInitiateResp
  initiate : String → Bytes → Nat → Bool → DebuginfoType → Except String UploadInstructions
  grpcUpload : UploadInstructions → Bytes → Except String Unit
  putStatus : String → Bytes → Nat
  markFinished : String → String → DebuginfoType → Except String Unit

/-- `uploadViaSignedURL` from `main.go`: one `PUT` of the body to the URL;
a response status other than `http.StatusOK` is an error carrying the
status code. -/
def uploadViaSignedURL (env : ServerEnv) (url : String) (body : Bytes) :
    List Event × Except RunError Unit :=
  ([Event.signedUrlPut url body],
   if env.putStatus url body ≠ statusOK then
     Except.error (RunError.unexpectedStatus (env.putStatus url body))
   else
     Except.ok ())

/-- The `switch initiationResp.UploadInstructions.UploadStrategy` of the
upload case: `GRPC` hands the rewound stream to the streaming client,
`SIGNED_URL` issues the HTTP `PUT`, `UNSPECIFIED` and the `default` arm
produce errors without any transmission. -/
def dispatchStrategy (env : ServerEnv) (instr : UploadInstructions) (r : ByteStream) :
    List Event × Except RunError Unit :=
  if instr.uploadStrategy = strategyGrpc then
    ([Event.grpcTransmit (r.readToEnd).1],
     match env.grpcUpload instr (r.readToEnd).1 with
     | Except.error e => Except.error (RunError.msg e)
     | Except.ok _ => Except.ok ())
  else if instr.uploadStrategy = strategySignedUrl then
    uploadViaSignedURL env instr.signedUrl (r.readToEnd).1
  else if instr.uploadStrategy = strategyUnspecified then
    ([], Except.error RunError.noStrategy)
  else
    ([], Except.error (RunError.unknownStrategy instr.uploadStrategy))

/-- One iteration of the per-artifact loop in the upload case of `run`:
dedup-check, optional skip / dry-run stop, hash, rewind, initiate,
strategy dispatch, mark-finished.  Returns the emitted event trace and
either `ok` (move to the next artifact) or the error that aborts the
run. -/
def processArtifact (env : ServerEnv) (fl : flags) (u : uploadInfo) :
    List Event × Except RunError Unit :=
  let ty := debuginfoTypeStringToPb fl.uploadType
  let ev0 := [Event.shouldInitiateCall u.buildID fl.force ty]
  match env.shouldInitiate u.buildID fl.force ty with
  | Except.error e => (ev0, Except.error (RunError.wrapped u.path (RunError.msg e)))
  | Except.ok resp =>
    if !resp.shouldInitiateUpload then
      (ev0 ++ [Event.skipMsg u.path u.buildID resp.reason], Except.ok ())
    else if fl.noInitiate then
      (ev0 ++ [Event.noInitiateMsg u.path u.buildID resp.reason], Except.ok ())
    else
      let hashInput := (u.reader.readToEnd).1
      let ev1 := ev0 ++ [Event.hashComputed hashInput]
      let r2 := ((u.reader.readToEnd).2).seekStart
      match env.initiate u.buildID hashInput u.size fl.force ty with
      | Except.error e => (ev1, Except.error (RunError.wrapped u.path (RunError.msg e)))
      | Except.ok instr =>
        let ev2 := ev1 ++ [Event.initiateCall u.buildID hashInput u.size fl.force ty]
        let dres := dispatchStrategy env instr r2
        let ev3 := ev2 ++ dres.1
        match dres.2 with
        | Except.error e => (ev3, Except.error (RunError.wrapped u.path e))
        | Except.ok _ =>
          let ev4 := ev3 ++ [Event.markFinishedCall u.buildID instr.uploadId ty]
          match env.markFinished u.buildID instr.uploadId ty with
          | Except.error e => (ev4, Except.error (RunError.wrapped u.path (RunError.msg e)))
          | Except.ok _ => (ev4, Except.ok ())

/-- The `for _, upload := range uploads` loop in the upload case of `run`:
strictly sequential, aborting the whole run on the first error. -/
def uploadLoop (env : ServerEnv) (fl : flags) :
    List uploadInfo → List Event × Except RunError Unit
  | [] => ([], Except.ok ())
  | u :: rest =>
    let (ev, res) := processArtifact env fl u
    match res with
    | Except.error e => (ev, Except.error e)
    | Except.ok _ =>
      let (ev2, res2) := uploadLoop env fl rest
      (ev ++ ev2, res2)

/-- Outcomes of the local collaborators: the build-id resolver
(`elf.Open` + `buildid.FromELF`), the local filesystem, and the
`elfwriter` reducer in its two modes. -/
structure LocalEnv where
  buildIdOf : String → Except String String
  fileContents : String → Except String Bytes
  openForExtract : String → Except String Unit
  stripDebug : String → Except String Bytes
  onlyKeepDebug : String → Except String Bytes

/-- `extractAll` from `main.go`: iterate over the (source → destination)
pairs; a failed open or a failed extraction is recorded and the loop
continues; successful extractions produce one output per pair.  The
second component models the `errors.Join` accumulator: the combined
error is nil exactly when the list is empty. -/
def extractAll (env : LocalEnv) (mode : String) :
    List String → List (String × Bytes) × List (String × String)
  | [] => ([], [])
  | src :: rest =>
    let (outs, errs) := extractAll env mode rest
    match env.openForExtract src with
    | Except.error e => (outs, (src, e) :: errs)
    | Except.ok _ =>
      let res := if mode = "strip-debug" then env.stripDebug src else env.onlyKeepDebug src
      match res with
      | Except.error e => (outs, (src, e) :: errs)
      | Except.ok out => ((src, out) :: outs, errs)

/-- First loop of the extract-and-upload path: resolve the build id of
every input path (failing fast), pairing each path with its id. -/
def collectBuildIDs (env : LocalEnv) : List String → Except RunError (List (String × String))
  | [] => Except.ok []
  | path :: rest =>
    match env.buildIdOf path with
    | Except.error e => Except.error (RunError.wrapped path (RunError.msg e))
    | Except.ok bid =>
      match collectBuildIDs env rest with
      | Except.error e => Except.error e
      | Except.ok r => Except.ok ((path, bid) :: r)

/-- Post-extraction loop of the upload path: rewind each scratch buffer
via `SeekStart`, record its length as the artifact size, and fail on a
zero-size extraction result, naming the artifact's path. -/
def finalizeExtracted (outs : List (String × Bytes)) :
    List (String × String) → Except RunError (List uploadInfo)
  | [] => Except.ok []
  | (path, bid) :: rest =>
    let content := ((outs.find? (fun q => q.1 == path)).map Prod.snd).getD []
    if content.length = 0 then Except.error (RunError.emptyExtraction path)
    else
      match finalizeExtracted outs rest with
      | Except.error e => Except.error e
      | Except.ok r =>
        Except.ok ({ buildID := bid, path := path,
                     reader := ⟨content, 0⟩, size := content.length } :: r)

/-- Collect phase of the upload case when extraction is enabled
(`!NoExtract && Type == "debuginfo"`): build ids, empty-set guard,
extraction into scratch buffers, zero-size check. -/
def collectExtract (env : LocalEnv) (fl : flags) (paths : List String) :
    Except RunError (List uploadInfo) :=
  match collectBuildIDs env paths with
  | Except.error e => Except.error e
  | Except.ok pairs =>
    if paths.isEmpty then Except.error (RunError.msg "failed to find actionable files")
    else
      if (extractAll env fl.mode paths).2.isEmpty then
        finalizeExtracted (extractAll env fl.mode paths).1 pairs
      else
        Except.error (RunError.wrapped "failed to extract debug information"
          (RunError.extractionFailed (extractAll env fl.mode paths).2))

/-- Build-id resolution in the no-extract collect path: the flag value is
used as-is unless the type is `debuginfo` and no id was supplied. -/
def resolveBuildID (env : LocalEnv) (fl : flags) (path : String) : Except RunError String :=
  if fl.uploadType = "debuginfo" ∧ fl.buildID = "" then
    match env.buildIdOf path with
    | Except.error e => Except.error (RunError.wrapped path (RunError.msg e))
    | Except.ok b => Except.ok b
  else Except.ok fl.buildID

/-- Collect phase of the upload case without extraction: open each file,
stat it, and fail on a zero on-disk size, naming the file's path. -/
def collectNoExtract (env : LocalEnv) (fl : flags) :
    List String → Except RunError (List uploadInfo)
  | [] => Except.ok []
  | path :: rest =>
    match resolveBuildID env fl path with
    | Except.error e => Except.error e
    | Except.ok bid =>
      match env.fileContents path with
      | Except.error e => Except.error (RunError.wrapped path (RunError.msg e))
      | Except.ok content =>
        if content.length = 0 then Except.error (RunError.emptyFile path)
        else
          match collectNoExtract env fl rest with
          | Except.error e => Except.error e
          | Except.ok r =>
            Except.ok ({ buildID := bid, path := path,
                         reader := ⟨content, 0⟩, size := content.length } :: r)

/-- The collect phase of the upload case: branch on
`!NoExtract && Type == "debuginfo"` as the source does. -/
def collectUploads (env : LocalEnv) (fl : flags) (paths : List String) :
    Except RunError (List uploadInfo) :=
  if ¬fl.noExtract ∧ fl.uploadType = "debuginfo" then collectExtract env fl paths
  else collectNoExtract env fl paths

/-- The whole upload case of `run`: collect, then drive each artifact
through the protocol.  A collect-phase error aborts before any protocol
event is emitted. -/
def runUpload (lenv : LocalEnv) (senv : ServerEnv) (fl : flags) (paths : List String) :
    List Event × Except RunError Unit :=
  match collectUploads lenv fl paths with
  | Except.error e => ([], Except.error e)
  | Except.ok uploads => uploadLoop senv fl uploads

/-- The extract case of `run`: per-path build-id resolution, the
empty-set guard, then `extractAll`, whose joined error (if any) is
returned. -/
def runExtractCmd (env : LocalEnv) (mode : String) (paths : List String) :
    Except RunError (List (String × Bytes)) :=
  match collectBuildIDs env paths with
  | Except.error e => Except.error e
  | Except.ok _ =>
    if paths.isEmpty then Except.error (RunError.msg "failed to find actionable files")
    else
      if (extractAll env mode paths).2.isEmpty then Except.ok (extractAll env mode paths).1
      else Except.error (RunError.extractionFailed (extractAll env mode paths).2)

/-- Result of `os.Open` on one source path in the source-archive
builder: the file exists with some content, does not exist
(`os.ErrNotExist`), or fails to open for another reason. -/
inductive FileRes where
  | exist (content : Bytes)
  | notExist
  | openErr (msg : String)
deriving Repr, DecidableEq

/-- The local filesystem as seen by the source-archive builder. -/
structure SourceEnv where
  file : String → FileRes

/-- State of the source case of `run`: the `seen` set, the tar entries
written so far (name and body; the header size is the body's length),
and the missing-file warnings printed so far. -/
structure ArchiveState where
  seen : List String
  entries : List (String × Bytes)
  warnings : List String
deriving Repr, DecidableEq

/-- The archive builder starts with nothing seen, written, or warned. -/
def initialArchiveState : ArchiveState := ⟨[], [], []⟩

/-- Body of the per-file loop in the source case of `run`: a seen path is
skipped; a missing path is warned about once and marked seen; an
existing path is appended to the archive and marked seen; any other
open failure aborts the run. -/
def processSourceFile (env : SourceEnv) (st : ArchiveState) (name : String) :
    Except RunError ArchiveState :=
  if name ∈ st.seen then Except.ok st
  else
    match env.file name with
    | FileRes.notExist =>
      Except.ok { st with warnings := st.warnings ++ [name], seen := st.seen ++ [name] }
    | FileRes.openErr e => Except.error (RunError.wrapped name (RunError.msg e))
    | FileRes.exist c =>
      Except.ok { st with entries := st.entries ++ [(name, c)], seen := st.seen ++ [name] }

/-- The `for _, lineFile := range lr.Files()` loop over one compilation
unit's line-table file names. -/
def processUnitFiles (env : SourceEnv) (st : ArchiveState) :
    List String → Except RunError ArchiveState
  | [] => Except.ok st
  | name :: rest =>
    match processSourceFile env st name with
    | Except.error e => Except.error e
    | Except.ok st2 => processUnitFiles env st2 rest

/-- The DWARF walk of the source case of `run`: the line-table file-name
lists of the compile-unit entries, in traversal order. -/
def runSource (env : SourceEnv) (st : ArchiveState) :
    List (List String) → Except RunError ArchiveState
  | [] => Except.ok st
  | cu :: rest =>
    match processUnitFiles env st cu with
    | Except.error e => Except.error e
    | Except.ok st2 => runSource env st2 rest

/-! ### Statement helpers -/

/-- Is this event the `ShouldInitiateUpload` dedup-check call? -/
def isDedupCheckEvent : Event → Bool
  | Event.shouldInitiateCall _ _ _ => true
  | _ => false

/-- Is this event the hash computation (`hash.Reader`)? -/
def isHashEvent : Event → Bool
  | Event.hashComputed _ => true
  | _ => false

/-- Is this event the `InitiateUpload` call? -/
def isInitiateEvent : Event → Bool
  | Event.initiateCall _ _ _ _ _ => true
  | _ => false

/-- Is this event a transmission (gRPC stream or signed-URL `PUT`)? -/
def isTransmitEvent : Event → Bool
  | Event.grpcTransmit _ => true
  | Event.signedUrlPut _ _ => true
  | _ => false

/-- Is this event the `MarkUploadFinished` call? -/
def isFinishEvent : Event → Bool
  | Event.markFinishedCall _ _ _ => true
  | _ => false

/-- Position of each event kind in the per-artifact protocol order
implemented by the source: dedup-check, then skip/dry-run message, then
hash, then initiate, then transmission, then mark-finished. -/
def stepRank : Event → Nat
  | Event.shouldInitiateCall _ _ _ => 0
  | Event.skipMsg _ _ _ => 1
  | Event.noInitiateMsg _ _ _ => 1
  | Event.hashComputed _ => 2
  | Event.initiateCall _ _ _ _ _ => 3
  | Event.grpcTransmit _ => 4
  | Event.signedUrlPut _ _ => 4
  | Event.markFinishedCall _ _ _ => 5

/-- The spec's claimed ordering (`Hashed` strictly before `DedupChecked`):
whenever a trace contains both a hash event and a dedup-check event, the
first hash event comes first. -/
def hashedBeforeDedupChecked (tr : List Event) : Bool :=
  match tr.findIdx? isHashEvent, tr.findIdx? isDedupCheckEvent with
  | some i, some j => decide (i < j)
  | _, _ => true

/-- Hash-integrity payload check: the bytes hashed, the hash pre-image
submitted in `InitiateUpload`, and the bytes handed to either transport
all equal the given full content. -/
def eventContentIs (full : Bytes) : Event → Prop
  | Event.hashComputed input => input = full
  | Event.initiateCall _ hin _ _ _ => hin = full
  | Event.grpcTransmit b => b = full
  | Event.signedUrlPut _ b => b = full
  | _ => True

/-- The `DebuginfoType` carried by a request event, if it is one of the
three store calls. -/
def eventDebuginfoType : Event → Option DebuginfoType
  | Event.shouldInitiateCall _ _ t => some t
  | Event.initiateCall _ _ _ _ t => some t
  | Event.markFinishedCall _ _ t => some t
  | _ => none

/-- Does `extractAll` record a failure for this source path: either the
open fails or the chosen reducer mode fails. -/
def pairFails (env : LocalEnv) (mode : String) (src : String) : Bool :=
  match env.openForExtract src with
  | Except.error _ => true
  | Except.ok _ =>
    match (if mode = "strip-debug" then env.stripDebug src else env.onlyKeepDebug src) with
    | Except.error _ => true
    | Except.ok _ => false

/-- Invariant of the source-archive builder state: the `seen` set has no
duplicates and contains every archived and every warned path; archive
entries and warnings are duplicate-free; entries hold exactly the
content of existing files; a missing path is warned about exactly when
it has been seen; warnings only concern missing paths. -/
def SourceInv (env : SourceEnv) (st : ArchiveState) : Prop :=
  st.seen.Nodup ∧
  (∀ n ∈ st.entries.map Prod.fst, n ∈ st.seen) ∧
  (∀ n ∈ st.warnings, n ∈ st.seen) ∧
  (st.entries.map Prod.fst).Nodup ∧
  st.warnings.Nodup ∧
  (∀ n c, (n, c) ∈ st.entries → env.file n = FileRes.exist c) ∧
  (∀ n, env.file n = FileRes.notExist → (n ∈ st.seen ↔ n ∈ st.warnings)) ∧
  (∀ n ∈ st.warnings, env.file n = FileRes.notExist)

/-! ### Demonstration environments, used to instantiate the theorems -/

/-- A store that accepts everything and picks the gRPC strategy. -/
def demoStore : ServerEnv := {
  shouldInitiate := fun _ _ _ => Except.ok ⟨true, "first time"⟩
  initiate := fun b _ _ _ _ => Except.ok ⟨b, "uid1", strategyGrpc, ""⟩
  grpcUpload := fun _ _ => Except.ok ()
  putStatus := fun _ _ => statusOK
  markFinished := fun _ _ _ => Except.ok () }

/-- A store that declines every dedup check. -/
def demoStoreSkip : ServerEnv :=
  { demoStore with shouldInitiate := fun _ _ _ => Except.ok ⟨false, "already exists"⟩ }

/-- A store that returns the unspecified upload strategy. -/
def demoStoreNoStrategy : ServerEnv :=
  { demoStore with initiate := fun b _ _ _ _ => Except.ok ⟨b, "uid1", strategyUnspecified, ""⟩ }

/-- A store whose signed-URL endpoint answers `201 Created`. -/
def demoStore201 : ServerEnv :=
  { demoStore with putStatus := fun _ _ => 201 }

/-- Default upload flags: `debuginfo` type, no force, no dry run. -/
def demoFlags : flags := ⟨"info", false, false, false, "debuginfo", "", "keep-only-debug"⟩

/-- One artifact whose stream is freshly positioned at offset 0. -/
def demoUpload : uploadInfo := ⟨"bid1", "/bin/app", ⟨[1, 2, 3], 0⟩, 3⟩

/-- A local environment where `/empty` stats to zero bytes and the
reducer fails on `/bad` but succeeds elsewhere. -/
def demoLocal : LocalEnv := {
  buildIdOf := fun p => Except.ok ("id-" ++ p)
  fileContents := fun p => if p = "/empty" then Except.ok [] else Except.ok [9, 9]
  openForExtract := fun _ => Except.ok ()
  stripDebug := fun _ => Except.ok [5]
  onlyKeepDebug := fun p => if p = "/bad" then Except.error "malformed" else Except.ok [7, 8] }

/-- A filesystem where `/missing` does not exist and every other path
holds one byte. -/
def demoSourceEnv : SourceEnv :=
  ⟨fun n => if n = "/missing" then FileRes.notExist else FileRes.exist [1]⟩

/-! ### Theorems -/

/-- C10: `debuginfoTypeStringToPb` maps `"executable"` and `"sources"` to
their enum values and every other string — including the default kind
`"debuginfo"` — to the unspecified type, so every dedup-check, initiate
and finish request made for the default kind carries the unspecified
type value. -/
theorem debuginfoType_mapping :
    debuginfoTypeStringToPb "executable" = DebuginfoType.executable ∧
    debuginfoTypeStringToPb "sources" = DebuginfoType.sources ∧
    debuginfoTypeStringToPb "debuginfo" = DebuginfoType.unspecified ∧
    (∀ s, s ≠ "executable" → s ≠ "sources" →
      debuginfoTypeStringToPb s = DebuginfoType.unspecified) ∧
    (∀ env fl u, fl.uploadType = "debuginfo" →
      ∀ e ∈ (processArtifact env fl u).1, ∀ d, eventDebuginfoType e = some d →
        d = DebuginfoType.unspecified) := by
  refine ⟨rfl, rfl, rfl, ?_, ?_⟩
  · intro s h1 h2
    unfold debuginfoTypeStringToPb
    split
    · exact absurd rfl h1
    · exact absurd rfl h2
    · rfl
  · intro env fl u hty e he d hd
    have hD : debuginfoTypeStringToPb "debuginfo" = DebuginfoType.unspecified := rfl
    unfold processArtifact dispatchStrategy uploadViaSignedURL at he
    rw [hty] at he
    simp only [] at he
    repeat' split at he
    all_goals
      simp only [List.append_eq, List.nil_append, List.cons_append, List.append_assoc,
        List.mem_append, List.mem_cons, List.not_mem_nil, List.mem_singleton,
        or_false, false_or] at he
    all_goals
      first
      | (simp_all [eventDebuginfoType, hD]; done)
      | ((rcases he with rfl | rfl | rfl | rfl | rfl) <;> simp_all [eventDebuginfoType, hD] <;> done)
      | ((rcases he with rfl | rfl | rfl | rfl) <;> simp_all [eventDebuginfoType, hD] <;> done)
      | ((rcases he with rfl | rfl | rfl) <;> simp_all [eventDebuginfoType, hD] <;> done)
      | ((rcases he with rfl | rfl) <;> simp_all [eventDebuginfoType, hD] <;> done)

/-- Witness for C10: the mapping and the request-type fact instantiated on
the unrecognized string `"other"` and on a concrete run. -/
theorem debuginfoType_mapping_witness :
    debuginfoTypeStringToPb "other" = DebuginfoType.unspecified ∧
    DebuginfoType.unspecified = DebuginfoType.unspecified :=
  ⟨debuginfoType_mapping.2.2.2.1 "other" (by decide) (by decide),
   debuginfoType_mapping.2.2.2.2 demoStore demoFlags demoUpload rfl
     (Event.shouldInitiateCall "bid1" false DebuginfoType.unspecified) (by decide)
     DebuginfoType.unspecified rfl⟩

/-- C7 counterexample: in a concrete successful upload run, the
`ShouldInitiateUpload` dedup-check call is the first event (index 0) and
the hash computation the second (index 1), so the artifact is
dedup-checked before it is hashed — the claimed `Hashed → DedupChecked`
order is false on the code. -/
theorem dedupCheck_precedes_hash_counterexample :
    (processArtifact demoStore demoFlags demoUpload).1.findIdx? isDedupCheckEvent = some 0 ∧
    (processArtifact demoStore demoFlags demoUpload).1.findIdx? isHashEvent = some 1 ∧
    hashedBeforeDedupChecked (processArtifact demoStore demoFlags demoUpload).1 = false := by
  decide

/-- C7 amended: for every artifact the per-artifact protocol steps occur
in the strict order the code implements — dedup-check, then
skip/dry-run stop, then hash, then initiate, then transmission, then
mark-finished — with no backward transitions; in particular the
artifact is DedupChecked before it is Hashed (the `ShouldInitiateUpload`
call is made before the content hash is computed). -/
theorem protocol_steps_strictly_ordered (env : ServerEnv) (fl : flags) (u : uploadInfo) :
    List.Pairwise (· < ·) ((processArtifact env fl u).1.map stepRank) := by
  suffices h : ∀ tr, (processArtifact env fl u).1 = tr →
      List.Pairwise (· < ·) (tr.map stepRank) from h _ rfl
  intro tr htr
  unfold processArtifact dispatchStrategy uploadViaSignedURL at htr
  simp only [] at htr
  repeat' split at htr
  all_goals subst htr
  all_goals simp [stepRank]

/-- C1: hash integrity.  When an artifact's stream is at position 0 on
entering the protocol loop — as the collect step guarantees, the file
being freshly opened or the scratch buffer rewound via `SeekStart` —
the bytes hashed, the hash pre-image submitted in `InitiateUpload`, and
the bytes handed to either transport (after the rewind to offset 0) are
all exactly the full stream content. -/
theorem hash_matches_transmission (env : ServerEnv) (fl : flags) (u : uploadInfo)
    (h : u.reader.pos = 0) :
    ∀ e ∈ (processArtifact env fl u).1, eventContentIs u.reader.content e := by
  intro e he
  unfold processArtifact dispatchStrategy uploadViaSignedURL at he
  simp only [] at he
  repeat' split at he
  all_goals
    simp only [List.append_eq, List.nil_append, List.cons_append, List.append_assoc,
      List.mem_append, List.mem_cons, List.not_mem_nil, List.mem_singleton,
      or_false, false_or] at he
  all_goals
    first
    | (simp_all [eventContentIs, ByteStream.readToEnd, ByteStream.seekStart]; done)
    | ((rcases he with rfl | rfl | rfl | rfl | rfl) <;>
        simp_all [eventContentIs, ByteStream.readToEnd, ByteStream.seekStart] <;> done)
    | ((rcases he with rfl | rfl | rfl | rfl) <;>
        simp_all [eventContentIs, ByteStream.readToEnd, ByteStream.seekStart] <;> done)
    | ((rcases he with rfl | rfl | rfl) <;>
        simp_all [eventContentIs, ByteStream.readToEnd, ByteStream.seekStart] <;> done)
    | ((rcases he with rfl | rfl) <;>
        simp_all [eventContentIs, ByteStream.readToEnd, ByteStream.seekStart] <;> done)

/-- Witness for C1: in a concrete run the transmitted body equals the full
content that was hashed. -/
theorem hash_matches_transmission_witness :
    demoUpload.reader.pos = 0 ∧
    eventContentIs demoUpload.reader.content (Event.grpcTransmit [1, 2, 3]) :=
  ⟨rfl, hash_matches_transmission demoStore demoFlags demoUpload rfl
          (Event.grpcTransmit [1, 2, 3]) (by decide)⟩

/-- C2: when the store's dedup check answers `shouldUpload = false`, the
artifact's processing consists of exactly the dedup-check call and the
informational skip message carrying the server's reason — no hash, no
`InitiateUpload`, no transmission — it ends without error, and the loop
continues with the remaining artifacts, whose outcome is unchanged. -/
theorem skip_declined_artifact (env : ServerEnv) (fl : flags) (u : uploadInfo)
    (rest : List uploadInfo) (resp : ShouldInitiateResp)
    (hresp : env.shouldInitiate u.buildID fl.force (debuginfoTypeStringToPb fl.uploadType) =
      Except.ok resp)
    (hno : resp.shouldInitiateUpload = false) :
    processArtifact env fl u =
      ([Event.shouldInitiateCall u.buildID fl.force (debuginfoTypeStringToPb fl.uploadType),
        Event.skipMsg u.path u.buildID resp.reason], Except.ok ()) ∧
    uploadLoop env fl (u :: rest) =
      ((processArtifact env fl u).1 ++ (uploadLoop env fl rest).1, (uploadLoop env fl rest).2) := by
  have h1 : processArtifact env fl u =
      ([Event.shouldInitiateCall u.buildID fl.force (debuginfoTypeStringToPb fl.uploadType),
        Event.skipMsg u.path u.buildID resp.reason], Except.ok ()) := by
    simp only [processArtifact]
    rw [hresp]
    simp [hno]
  refine ⟨h1, ?_⟩
  rcases hrest : uploadLoop env fl rest with ⟨ev2, res2⟩
  simp [uploadLoop, h1, hrest]

/-- Witness for C2: a store that declines everything yields exactly the
dedup-check event and the skip message, with an `ok` outcome. -/
theorem skip_declined_artifact_witness :
    processArtifact demoStoreSkip demoFlags demoUpload =
      ([Event.shouldInitiateCall "bid1" false DebuginfoType.unspecified,
        Event.skipMsg "/bin/app" "bid1" "already exists"], Except.ok ()) :=
  (skip_declined_artifact demoStoreSkip demoFlags demoUpload []
    ⟨false, "already exists"⟩ rfl rfl).1

/-- C3: when the server-returned strategy is neither gRPC nor signed-URL
(unspecified or any unrecognized value), the artifact's trace is exactly
dedup-check, hash, initiate — no transmission and no
`MarkUploadFinished` — the result is an error naming the artifact, and
the whole run aborts: the loop's output is that artifact's alone and
the remaining artifacts are never processed. -/
theorem unknown_strategy_aborts (env : ServerEnv) (fl : flags) (u : uploadInfo)
    (rest : List uploadInfo) (resp : ShouldInitiateResp) (instr : UploadInstructions)
    (hresp : env.shouldInitiate u.buildID fl.force (debuginfoTypeStringToPb fl.uploadType) =
      Except.ok resp)
    (hyes : resp.shouldInitiateUpload = true)
    (hni : fl.noInitiate = false)
    (hinit : env.initiate u.buildID (u.reader.readToEnd).1 u.size fl.force
      (debuginfoTypeStringToPb fl.uploadType) = Except.ok instr)
    (hg : instr.uploadStrategy ≠ strategyGrpc)
    (hs : instr.uploadStrategy ≠ strategySignedUrl) :
    processArtifact env fl u =
      ([Event.shouldInitiateCall u.buildID fl.force (debuginfoTypeStringToPb fl.uploadType),
        Event.hashComputed (u.reader.readToEnd).1,
        Event.initiateCall u.buildID (u.reader.readToEnd).1 u.size fl.force
          (debuginfoTypeStringToPb fl.uploadType)],
       Except.error (RunError.wrapped u.path
         (if instr.uploadStrategy = strategyUnspecified then RunError.noStrategy
          else RunError.unknownStrategy instr.uploadStrategy))) ∧
    (∀ e ∈ (processArtifact env fl u).1, isTransmitEvent e = false ∧ isFinishEvent e = false) ∧
    uploadLoop env fl (u :: rest) = processArtifact env fl u := by
  have hd : dispatchStrategy env instr ((u.reader.readToEnd).2.seekStart) =
      ([], Except.error
        (if instr.uploadStrategy = strategyUnspecified then RunError.noStrategy
         else RunError.unknownStrategy instr.uploadStrategy)) := by
    unfold dispatchStrategy
    rw [if_neg hg, if_neg hs]
    split <;> simp
  have h1 : processArtifact env fl u =
      ([Event.shouldInitiateCall u.buildID fl.force (debuginfoTypeStringToPb fl.uploadType),
        Event.hashComputed (u.reader.readToEnd).1,
        Event.initiateCall u.buildID (u.reader.readToEnd).1 u.size fl.force
          (debuginfoTypeStringToPb fl.uploadType)],
       Except.error (RunError.wrapped u.path
         (if instr.uploadStrategy = strategyUnspecified then RunError.noStrategy
          else RunError.unknownStrategy instr.uploadStrategy))) := by
    simp only [processArtifact]
    rw [hresp]
    simp only [hyes, hni, Bool.not_true, Bool.false_eq_true, if_false]
    rw [hinit]
    simp only []
    rw [hd]
    simp
  refine ⟨h1, ?_, ?_⟩
  · intro e he
    rw [h1] at he
    simp only [List.mem_cons, List.not_mem_nil, or_false] at he
    rcases he with rfl | rfl | rfl
    · exact ⟨rfl, rfl⟩
    · exact ⟨rfl, rfl⟩
    · exact ⟨rfl, rfl⟩
  · simp [uploadLoop, h1]

/-- Witness for C3: with a store returning the unspecified strategy, a
two-artifact run stops at the first artifact. -/
theorem unknown_strategy_aborts_witness :
    uploadLoop demoStoreNoStrategy demoFlags [demoUpload, demoUpload] =
      processArtifact demoStoreNoStrategy demoFlags demoUpload :=
  (unknown_strategy_aborts demoStoreNoStrategy demoFlags demoUpload [demoUpload]
    ⟨true, "first time"⟩ ⟨"bid1", "uid1", strategyUnspecified, ""⟩
    rfl rfl rfl rfl (by decide) (by decide)).2.2

/-- C6 counterexample: `201 Created` is a 2xx-equivalent status, yet
`uploadViaSignedURL` rejects it — the code accepts only exactly
`http.StatusOK` (200), so "succeeds for every 2xx-equivalent status" is
false on the code. -/
theorem signed_url_2xx_counterexample :
    200 ≤ 201 ∧ 201 < 300 ∧
    demoStore201.putStatus "https://signed" [1, 2] = 201 ∧
    (uploadViaSignedURL demoStore201 "https://signed" [1, 2]).2 =
      Except.error (RunError.unexpectedStatus 201) :=
  ⟨by norm_num, by norm_num, rfl, rfl⟩

/-- C6 amended: the signed-URL transport issues a single `PUT` of the full
artifact body to the provided URL and succeeds exactly when the HTTP
response status is 200 (`http.StatusOK`); any other status — including
other 2xx statuses — yields a hard error carrying the status code. -/
theorem signed_url_put_semantics (env : ServerEnv) (url : String) (body : Bytes) :
    (uploadViaSignedURL env url body).1 = [Event.signedUrlPut url body] ∧
    ((uploadViaSignedURL env url body).2 = Except.ok () ↔ env.putStatus url body = statusOK) ∧
    (env.putStatus url body ≠ statusOK →
      (uploadViaSignedURL env url body).2 =
        Except.error (RunError.unexpectedStatus (env.putStatus url body))) := by
  unfold uploadViaSignedURL
  refine ⟨rfl, ?_, ?_⟩
  · split <;> simp_all
  · intro h
    simp [h]

/-- Witness for C6 (amended): status 200 succeeds, status 201 errors with
the code. -/
theorem signed_url_put_semantics_witness :
    (uploadViaSignedURL demoStore "https://signed" [1]).2 = Except.ok () ∧
    (uploadViaSignedURL demoStore201 "https://signed" [1]).2 =
      Except.error (RunError.unexpectedStatus 201) :=
  ⟨(signed_url_put_semantics demoStore "https://signed" [1]).2.1.mpr rfl,
   (signed_url_put_semantics demoStore201 "https://signed" [1]).2.2 (by decide)⟩

/-- C9: `extractAll` on an empty pair set is a silent no-op (no outputs,
no joined error); the "failed to find actionable files" guard against an
empty input set is enforced by its callers — the extract-and-upload
collect path and the extract command — before `extractAll` runs, for
any extraction environment whatsoever. -/
theorem empty_input_guard :
    (∀ env mode, extractAll env mode [] = ([], [])) ∧
    (∀ lenv senv fl, fl.noExtract = false → fl.uploadType = "debuginfo" →
      runUpload lenv senv fl [] =
        ([], Except.error (RunError.msg "failed to find actionable files"))) ∧
    (∀ env mode, runExtractCmd env mode [] =
      Except.error (RunError.msg "failed to find actionable files")) := by
  refine ⟨fun env mode => rfl, ?_, fun env mode => rfl⟩
  intro lenv senv fl h1 h2
  simp [runUpload, collectUploads, collectExtract, collectBuildIDs, h1, h2]

/-- Witness for C9: the upload path's guard fires on a concrete empty
input set. -/
theorem empty_input_guard_witness :
    runUpload demoLocal demoStore demoFlags [] =
      ([], Except.error (RunError.msg "failed to find actionable files")) :=
  empty_input_guard.2.1 demoLocal demoStore demoFlags rfl rfl

/-- Per-pair bookkeeping of `extractAll`: the successful outputs are
exactly the non-failing pairs in order, the recorded failures exactly
the failing pairs in order, and together they account for every pair. -/
theorem extractAll_spec_parts (env : LocalEnv) (mode : String) (srcs : List String) :
    (extractAll env mode srcs).1.map Prod.fst =
      srcs.filter (fun s => !pairFails env mode s) ∧
    (extractAll env mode srcs).2.map Prod.fst =
      srcs.filter (fun s => pairFails env mode s) ∧
    (extractAll env mode srcs).1.length + (extractAll env mode srcs).2.length = srcs.length := by
  induction srcs with
  | nil => exact ⟨rfl, rfl, rfl⟩
  | cons src rest ih =>
    obtain ⟨ih1, ih2, ih3⟩ := ih
    unfold extractAll
    rcases ho : env.openForExtract src with e | v
    · have hp : pairFails env mode src = true := by simp [pairFails, ho]
      simp only [ho, List.filter_cons, hp]
      refine ⟨by simp [ih1], by simp [ih2], ?_⟩
      simp only [List.length_cons]
      omega
    · rcases hr : (if mode = "strip-debug" then env.stripDebug src else env.onlyKeepDebug src)
        with e | out
      · have hp : pairFails env mode src = true := by simp [pairFails, ho, hr]
        simp only [ho, hr, List.filter_cons, hp]
        refine ⟨by simp [ih1], by simp [ih2], ?_⟩
        simp only [List.length_cons]
        omega
      · have hp : pairFails env mode src = false := by simp [pairFails, ho, hr]
        simp only [ho, hr, List.filter_cons, hp]
        refine ⟨by simp [ih1], by simp [ih2], ?_⟩
        simp only [List.length_cons]
        omega

/-- C5: `extractAll` processes every pair regardless of earlier failures —
its outputs are the non-failing pairs and its recorded failures the
failing pairs, jointly exhausting the input — the joined error is nil
iff no pair failed, and with exactly one failing pair it yields N−1
successful outputs and one failure naming that pair. -/
theorem extract_failure_isolation (env : LocalEnv) (mode : String) (srcs : List String) :
    (extractAll env mode srcs).1.map Prod.fst =
      srcs.filter (fun s => !pairFails env mode s) ∧
    (extractAll env mode srcs).2.map Prod.fst =
      srcs.filter (fun s => pairFails env mode s) ∧
    (extractAll env mode srcs).1.length + (extractAll env mode srcs).2.length = srcs.length ∧
    ((extractAll env mode srcs).2 = [] ↔ ∀ s ∈ srcs, pairFails env mode s = false) ∧
    (∀ s, srcs.filter (fun x => pairFails env mode x) = [s] →
      (extractAll env mode srcs).1.length = srcs.length - 1 ∧
      (extractAll env mode srcs).2.map Prod.fst = [s]) := by
  obtain ⟨h1, h2, h3⟩ := extractAll_spec_parts env mode srcs
  refine ⟨h1, h2, h3, ?_, ?_⟩
  · constructor
    · intro h s hs
      have hf : srcs.filter (fun s => pairFails env mode s) = [] := by
        rw [← h2, h]
        rfl
      have := List.filter_eq_nil_iff.mp hf s hs
      simpa using this
    · intro h
      have hf : srcs.filter (fun s => pairFails env mode s) = [] :=
        List.filter_eq_nil_iff.mpr (by simpa using h)
      have hm : (extractAll env mode srcs).2.map Prod.fst = [] := by rw [h2, hf]
      exact List.map_eq_nil_iff.mp hm
  · intro s hs
    have hlen : (extractAll env mode srcs).2.length = 1 := by
      have := congrArg List.length (h2.trans hs)
      simpa using this
    exact ⟨by omega, by rw [h2, hs]⟩

/-- Witness for C5: three pairs of which exactly `/bad` fails give two
successful outputs and the single failure names `/bad`. -/
theorem extract_failure_isolation_witness :
    (extractAll demoLocal "keep-only-debug" ["/a", "/bad", "/c"]).1.length = 2 ∧
    (extractAll demoLocal "keep-only-debug" ["/a", "/bad", "/c"]).2.map Prod.fst = ["/bad"] :=
  (extract_failure_isolation demoLocal "keep-only-debug" ["/a", "/bad", "/c"]).2.2.2.2
    "/bad" (by decide)


/-- Every artifact produced by the no-extract collect loop has a positive
size: the zero-size stat check rejects empty files. -/
theorem collectNoExtract_sizes (env : LocalEnv) (fl : flags) :
    ∀ paths uploads, collectNoExtract env fl paths = Except.ok uploads →
      ∀ u ∈ uploads, 0 < u.size
  | [], uploads, h => by
    simp only [collectNoExtract] at h
    cases h
    intro u hu
    simp at hu
  | path :: rest, uploads, h => by
    have ih := collectNoExtract_sizes env fl rest
    unfold collectNoExtract at h
    rcases hb : resolveBuildID env fl path with e | bid <;> rw [hb] at h
    · cases h
    rcases hc : env.fileContents path with e | content <;> rw [hc] at h
    · cases h
    simp only [] at h
    by_cases hz : content.length = 0
    · rw [if_pos hz] at h
      cases h
    rw [if_neg hz] at h
    rcases hr : collectNoExtract env fl rest with e | r <;> rw [hr] at h
    · cases h
    cases h
    intro u hu
    rcases List.mem_cons.mp hu with rfl | hu2
    · simpa using Nat.pos_of_ne_zero hz
    · exact ih r hr u hu2

/-- Every artifact produced by the post-extraction loop has a positive
size: the zero-size buffer check rejects empty extraction results. -/
theorem finalizeExtracted_sizes (outs : List (String × Bytes)) :
    ∀ pairs uploads, finalizeExtracted outs pairs = Except.ok uploads →
      ∀ u ∈ uploads, 0 < u.size
  | [], uploads, h => by
    simp only [finalizeExtracted] at h
    cases h
    intro u hu
    simp at hu
  | (path, bid) :: rest, uploads, h => by
    have ih := finalizeExtracted_sizes outs rest
    unfold finalizeExtracted at h
    simp only [] at h
    by_cases hz : (((outs.find? (fun q => q.1 == path)).map Prod.snd).getD []).length = 0
    · rw [if_pos hz] at h
      cases h
    rw [if_neg hz] at h
    rcases hr : finalizeExtracted outs rest with e | r <;> rw [hr] at h
    · cases h
    cases h
    intro u hu
    rcases List.mem_cons.mp hu with rfl | hu2
    · simpa using Nat.pos_of_ne_zero hz
    · exact ih r hr u hu2

/-- Every artifact produced by the extract-and-upload collect phase has a
positive size. -/
theorem collectExtract_sizes (env : LocalEnv) (fl : flags) (paths : List String)
    (uploads : List uploadInfo) (h : collectExtract env fl paths = Except.ok uploads) :
    ∀ u ∈ uploads, 0 < u.size := by
  unfold collectExtract at h
  rcases hb : collectBuildIDs env paths with e | pairs <;> rw [hb] at h
  · cases h
  simp only [] at h
  by_cases hp : paths.isEmpty = true
  · simp [hp] at h
  rw [if_neg (by simp [hp])] at h
  by_cases he2 : (extractAll env fl.mode paths).2.isEmpty = true
  · rw [if_pos (by simp [he2])] at h
    exact finalizeExtracted_sizes _ _ _ h
  · rw [if_neg (by simp [he2])] at h
    cases h

/-- Every artifact reaching the protocol loop has a positive size,
whichever collect path produced it. -/
theorem collectUploads_sizes (env : LocalEnv) (fl : flags) (paths : List String)
    (uploads : List uploadInfo) (h : collectUploads env fl paths = Except.ok uploads) :
    ∀ u ∈ uploads, 0 < u.size := by
  unfold collectUploads at h
  split at h
  · exact collectExtract_sizes env fl paths uploads h
  · exact collectNoExtract_sizes env fl paths uploads h

/-- C4: the zero-size guard.  An artifact whose resolved content is empty
makes the collect phase fail with an error naming that artifact\'s path
(`emptyFile` for the on-disk stat check, `emptyExtraction` for the
post-extraction buffer check); every artifact the collect phase does
hand to the protocol loop has positive size; and a collect-phase error
aborts the run before any protocol event — in particular before any
hashing — is emitted. -/
theorem zero_size_guard :
    (∀ env fl path rest bid,
      resolveBuildID env fl path = Except.ok bid →
      env.fileContents path = Except.ok [] →
      collectNoExtract env fl (path :: rest) = Except.error (RunError.emptyFile path)) ∧
    (∀ outs path bid rest,
      ((outs.find? (fun q => q.1 == path)).map Prod.snd).getD [] = [] →
      finalizeExtracted outs ((path, bid) :: rest) =
        Except.error (RunError.emptyExtraction path)) ∧
    (∀ lenv fl paths uploads, collectUploads lenv fl paths = Except.ok uploads →
      ∀ u ∈ uploads, 0 < u.size) ∧
    (∀ lenv senv fl paths e, collectUploads lenv fl paths = Except.error e →
      runUpload lenv senv fl paths = ([], Except.error e)) := by
  refine ⟨?_, ?_, ?_, ?_⟩
  · intro env fl path rest bid hb hc
    unfold collectNoExtract
    rw [hb, hc]
    simp
  · intro outs path bid rest hz
    unfold finalizeExtracted
    rw [hz]
    simp
  · intro lenv fl paths uploads h
    exact collectUploads_sizes lenv fl paths uploads h
  · intro lenv senv fl paths e h
    unfold runUpload
    rw [h]

/-- Witness for C4: the empty file `/empty` fails collection with an error
naming it, and the whole run aborts with no events. -/
theorem zero_size_guard_witness :
    collectNoExtract demoLocal { demoFlags with noExtract := true } ["/empty"] =
      Except.error (RunError.emptyFile "/empty") ∧
    runUpload demoLocal demoStore { demoFlags with noExtract := true } ["/empty"] =
      ([], Except.error (RunError.emptyFile "/empty")) :=
  ⟨zero_size_guard.1 demoLocal { demoFlags with noExtract := true } "/empty" [] "id-/empty"
      rfl rfl,
   zero_size_guard.2.2.2 demoLocal demoStore { demoFlags with noExtract := true } ["/empty"]
      (RunError.emptyFile "/empty") rfl⟩


/-- One step of the source-archive loop preserves the state invariant,
only grows the `seen` set, and leaves the processed name seen. -/
theorem processSourceFile_ok (env : SourceEnv) (st : ArchiveState) (name : String)
    (st2 : ArchiveState) (h : processSourceFile env st name = Except.ok st2)
    (hinv : SourceInv env st) :
    SourceInv env st2 ∧ st.seen ⊆ st2.seen ∧ name ∈ st2.seen := by
  obtain ⟨i1, i2, i3, i4, i5, i6, i7, i8⟩ := hinv
  unfold processSourceFile at h
  by_cases hseen : name ∈ st.seen
  · rw [if_pos hseen] at h
    cases h
    exact ⟨⟨i1, i2, i3, i4, i5, i6, i7, i8⟩, List.Subset.refl _, hseen⟩
  rw [if_neg hseen] at h
  have hnw : name ∉ st.warnings := fun hw => hseen (i3 name hw)
  have hne : name ∉ st.entries.map Prod.fst := fun hee => hseen (i2 name hee)
  rcases hf : env.file name with c | _ | m <;> rw [hf] at h
  · -- exist c
    cases h
    refine ⟨⟨?_, ?_, ?_, ?_, i5, ?_, ?_, ?_⟩, ?_, ?_⟩
    · simp [List.nodup_append, i1, hseen]
    · intro n hn
      simp only [List.map_append] at hn
      rcases List.mem_append.mp hn with hn | hn
      · exact List.mem_append_left _ (i2 n hn)
      · simp at hn
        subst hn
        exact List.mem_append_right _ (by simp)
    · intro n hn
      exact List.mem_append_left _ (i3 n hn)
    · simp only [List.map_append]
      rw [List.nodup_append]
      refine ⟨i4, by simp, ?_⟩
      intro n hn hn2
      simp at hn2
      subst hn2
      exact hne hn
    · intro n c2 hn
      rcases List.mem_append.mp hn with hn | hn
      · exact i6 n c2 hn
      · simp at hn
        obtain ⟨rfl, rfl⟩ := hn
        exact hf
    · intro n hmiss
      constructor
      · intro hn
        rcases List.mem_append.mp hn with hn | hn
        · exact (i7 n hmiss).mp hn
        · simp at hn
          subst hn
          rw [hf] at hmiss
          cases hmiss
      · intro hn
        exact List.mem_append_left _ ((i7 n hmiss).mpr hn)
    · exact i8
    · exact fun a ha => List.mem_append_left _ ha
    · exact List.mem_append_right _ (by simp)
  · -- notExist
    cases h
    refine ⟨⟨?_, ?_, ?_, i4, ?_, i6, ?_, ?_⟩, ?_, ?_⟩
    · simp [List.nodup_append, i1, hseen]
    · intro n hn
      exact List.mem_append_left _ (i2 n hn)
    · intro n hn
      rcases List.mem_append.mp hn with hn | hn
      · exact List.mem_append_left _ (i3 n hn)
      · simp at hn
        subst hn
        exact List.mem_append_right _ (by simp)
    · rw [List.nodup_append]
      exact ⟨i5, by simp, fun n hn hn2 => by simp at hn2; subst hn2; exact hnw hn⟩
    · intro n hmiss
      by_cases hn2 : n = name
      · subst hn2
        simp
      · constructor
        · intro hn
          rcases List.mem_append.mp hn with hn | hn
          · exact List.mem_append_left _ ((i7 n hmiss).mp hn)
          · simp at hn
            exact absurd hn hn2
        · intro hn
          rcases List.mem_append.mp hn with hn | hn
          · exact List.mem_append_left _ ((i7 n hmiss).mpr hn)
          · simp at hn
            exact absurd hn hn2
    · intro n hn
      rcases List.mem_append.mp hn with hn | hn
      · exact i8 n hn
      · simp at hn
        subst hn
        exact hf
    · exact fun a ha => List.mem_append_left _ ha
    · exact List.mem_append_right _ (by simp)
  · -- openErr
    cases h

/-- Processing one compilation unit preserves the invariant, grows `seen`
monotonically, and marks every one of its file names seen. -/
theorem processUnitFiles_ok (env : SourceEnv) :
    ∀ names st st2, processUnitFiles env st names = Except.ok st2 →
      SourceInv env st →
      SourceInv env st2 ∧ st.seen ⊆ st2.seen ∧ ∀ n ∈ names, n ∈ st2.seen
  | [], st, st2, h, hinv => by
    simp only [processUnitFiles] at h
    cases h
    exact ⟨hinv, List.Subset.refl _, by simp⟩
  | name :: rest, st, st2, h, hinv => by
    unfold processUnitFiles at h
    rcases hp : processSourceFile env st name with e | stm <;> rw [hp] at h
    · cases h
    obtain ⟨hinv1, hsub1, hmem1⟩ := processSourceFile_ok env st name stm hp hinv
    obtain ⟨hinv2, hsub2, hmem2⟩ := processUnitFiles_ok env rest stm st2 h hinv1
    refine ⟨hinv2, fun a ha => hsub2 (hsub1 ha), ?_⟩
    intro n hn
    rcases List.mem_cons.mp hn with rfl | hn2
    · exact hsub2 hmem1
    · exact hmem2 n hn2

/-- The whole DWARF walk preserves the invariant and marks every
referenced file name seen. -/
theorem runSource_ok (env : SourceEnv) :
    ∀ units st st2, runSource env st units = Except.ok st2 →
      SourceInv env st →
      SourceInv env st2 ∧ st.seen ⊆ st2.seen ∧ ∀ cu ∈ units, ∀ n ∈ cu, n ∈ st2.seen
  | [], st, st2, h, hinv => by
    simp only [runSource] at h
    cases h
    exact ⟨hinv, List.Subset.refl _, by simp⟩
  | cu :: rest, st, st2, h, hinv => by
    unfold runSource at h
    rcases hp : processUnitFiles env st cu with e | stm <;> rw [hp] at h
    · cases h
    obtain ⟨hinv1, hsub1, hmem1⟩ := processUnitFiles_ok env cu st stm hp hinv
    obtain ⟨hinv2, hsub2, hmem2⟩ := runSource_ok env rest stm st2 h hinv1
    refine ⟨hinv2, fun a ha => hsub2 (hsub1 ha), ?_⟩
    intro c hc n hn
    rcases List.mem_cons.mp hc with rfl | hc2
    · exact hsub2 (hmem1 n hn)
    · exact hmem2 c hc2 n hn

/-- A file step can only fail through a non-not-exist open error. -/
theorem processSourceFile_total (env : SourceEnv) (st : ArchiveState) (name : String)
    (h : ∀ m, env.file name ≠ FileRes.openErr m) :
    ∃ st2, processSourceFile env st name = Except.ok st2 := by
  unfold processSourceFile
  by_cases hseen : name ∈ st.seen
  · exact ⟨st, by rw [if_pos hseen]⟩
  rw [if_neg hseen]
  rcases hf : env.file name with c | _ | m
  · exact ⟨_, rfl⟩
  · exact ⟨_, rfl⟩
  · exact absurd hf (h m)

/-- A unit without open errors always processes to completion. -/
theorem processUnitFiles_total (env : SourceEnv)
    (h : ∀ n m, env.file n ≠ FileRes.openErr m) :
    ∀ names st, ∃ st2, processUnitFiles env st names = Except.ok st2
  | [], st => ⟨st, rfl⟩
  | name :: rest, st => by
    obtain ⟨stm, hm⟩ := processSourceFile_total env st name (h name)
    obtain ⟨st2, h2⟩ := processUnitFiles_total env h rest stm
    refine ⟨st2, ?_⟩
    unfold processUnitFiles
    rw [hm]
    exact h2

/-- A walk without open errors always completes successfully. -/
theorem runSource_total (env : SourceEnv)
    (h : ∀ n m, env.file n ≠ FileRes.openErr m) :
    ∀ units st, ∃ st2, runSource env st units = Except.ok st2
  | [], st => ⟨st, rfl⟩
  | cu :: rest, st => by
    obtain ⟨stm, hm⟩ := processUnitFiles_total env h cu st
    obtain ⟨st2, h2⟩ := runSource_total env h rest stm
    refine ⟨st2, ?_⟩
    unfold runSource
    rw [hm]
    exact h2

/-- The empty initial state satisfies the archive invariant. -/
theorem initial_sourceInv (env : SourceEnv) : SourceInv env initialArchiveState := by
  refine ⟨by simp [initialArchiveState], ?_, ?_, ?_, ?_, ?_, ?_, ?_⟩ <;>
    simp [initialArchiveState, SourceInv]

/-- C8: within one run of the source-archive builder, the `seen` set
guarantees each distinct source path is archived at most once (the
archive entry names are duplicate-free, even when a path is referenced
by several compilation units), a missing path is warned about exactly
once (warnings are duplicate-free, and every referenced missing path is
warned about) and is excluded from the archive, and missing files alone
never fail the run. -/
theorem source_archive_dedup :
    (∀ env units st2, runSource env initialArchiveState units = Except.ok st2 →
      (st2.entries.map Prod.fst).Nodup ∧
      st2.warnings.Nodup ∧
      (∀ n c, (n, c) ∈ st2.entries → env.file n = FileRes.exist c) ∧
      (∀ n ∈ st2.warnings, env.file n = FileRes.notExist) ∧
      (∀ n, env.file n = FileRes.notExist → n ∈ units.flatten →
        n ∈ st2.warnings ∧ n ∉ st2.entries.map Prod.fst)) ∧
    (∀ env units, (∀ n m, env.file n ≠ FileRes.openErr m) →
      ∃ st2, runSource env initialArchiveState units = Except.ok st2) := by
  constructor
  · intro env units st2 hrun
    obtain ⟨⟨i1, i2, i3, i4, i5, i6, i7, i8⟩, _, hseen⟩ :=
      runSource_ok env units initialArchiveState st2 hrun (initial_sourceInv env)
    refine ⟨i4, i5, i6, i8, ?_⟩
    intro n hmiss hjoin
    obtain ⟨cu, hcu, hn⟩ := List.mem_flatten.mp hjoin
    have hs : n ∈ st2.seen := hseen cu hcu n hn
    refine ⟨(i7 n hmiss).mp hs, ?_⟩
    intro hee
    obtain ⟨⟨n2, c⟩, hmem, rfl⟩ := List.mem_map.mp hee
    have := i6 _ c hmem
    rw [hmiss] at this
    cases this
  · intro env units h
    exact runSource_total env h units initialArchiveState

/-- Witness for C8: a walk referencing `/x` and `/missing` from two
compilation units completes successfully. -/
theorem source_archive_dedup_witness :
    ∃ st2, runSource demoSourceEnv initialArchiveState
      [["/x", "/missing"], ["/x", "/missing", "/y"]] = Except.ok st2 :=
  source_archive_dedup.2 demoSourceEnv [["/x", "/missing"], ["/x", "/missing", "/y"]]
    (by
      intro n m
      unfold demoSourceEnv
      by_cases hn : n = "/missing" <;> simp [hn])

end DebugInfo
